import Mathlib

/-!
Verification of the yocto_actor messaging core.

The development shallowly embeds the Rust sources:

* `src/src/lib.rs` — `Address`, `Envelope`, `Inbox`, `Outbox`, and the
  byte-level helpers (`truncate_byte_array_string`);
* `src/custom_derive/src/lib.rs` — the `actor_message` attribute that
  generates a handler trait, an exhaustive dispatcher and a control loop.

Machine bytes are modelled as `Nat` (all content involved is ASCII, so no
wrap-around arithmetic occurs).  Rust code that can panic is embedded as an
`Option`/`Except` returning function, with `none`/`error` standing for the
panic/abort.  Randomness (the `rand::random::<u64>()` call and the
`silly_names::make_name` token) is made an explicit parameter so that the
theorems quantify over every value the external generators may produce.
-/

namespace YoctoActor

/-- Embeds `const ADDRESS_LENGTH: usize = 32`. -/
def ADDRESS_LENGTH : Nat := 32

/-- The byte used to initialise the address buffer, `[0 as u8; ADDRESS_LENGTH]`
in `Address::new`: every byte not overwritten by the formatted content keeps
this value, so it is the pad/filler byte of an address. -/
def fillerByte : Nat := 0

/-- ASCII bytes of a Lean string literal (used for the fixed parts of the
connection strings; all literals involved are ASCII). -/
def strBytes (s : String) : List Nat := s.data.map Char.toNat

/-- Embeds `write!(&mut conn_string[..], ...)` into the zero-initialised
32-byte buffer: if the formatted content fits, the buffer holds the content
followed by the untouched filler bytes; otherwise the `io::Write`
implementation for `&mut [u8]` reports a short write and the surrounding
`.expect("Cannot create address")` aborts (modelled as `none`). -/
def writeToBuffer (content : List Nat) : Option (List Nat) :=
  if content.length ≤ ADDRESS_LENGTH then
    some (content ++ List.replicate (ADDRESS_LENGTH - content.length) fillerByte)
  else none

/-- Little-endian decimal digits of `n`, with explicit fuel so that the
definition computes by kernel reduction.  Bridged to `Nat.digits` below. -/
def toDecimalAux : Nat → Nat → List Nat
  | 0, _ => []
  | _ + 1, 0 => []
  | f + 1, n + 1 => ((n + 1) % 10) :: toDecimalAux f ((n + 1) / 10)

/-- ASCII bytes of the standard decimal rendering of `n`, most significant
digit first — what `write!("{}", n)` produces for an unsigned integer. -/
def decimalBytes (n : Nat) : List Nat :=
  if n = 0 then [48] else ((toDecimalAux n n).map (fun d => d + 48)).reverse

/-- Embeds `pub enum AddressType { Local, Remote }`. -/
inductive AddressType
  | Local
  | Remote
deriving DecidableEq, Repr

/-- The formatted content `format!("inproc://{}", token)` of a local address,
with the token produced by the external `silly_names::make_name` call kept
abstract as a byte list. -/
def localContent (token : List Nat) : List Nat := strBytes ("inproc://") ++ token

/-- The port computed in `Address::new` for `AddressType::Remote`:
`5000 + rand::random::<u64>() % 5000`, with the random draw `r` explicit. -/
def remotePort (r : Nat) : Nat := 5000 + r % 5000

/-- The formatted content `format!("tcp://127.0.0.1:{}", port)` of a remote
address. -/
def remoteContent (r : Nat) : List Nat :=
  strBytes ("tcp://127.0.0.1:") ++ decimalBytes (remotePort r)

/-- Embeds the `AddressType::Local` arm of `Address::new`: write the
`inproc://…` content into the zeroed 32-byte buffer (`none` = the
`expect("Cannot create address")` abort when the content does not fit). -/
def Address.newLocal (token : List Nat) : Option (List Nat) :=
  writeToBuffer (localContent token)

/-- Embeds the `AddressType::Remote` arm of `Address::new`. -/
def Address.newRemote (r : Nat) : Option (List Nat) :=
  writeToBuffer (remoteContent r)

/-- Embeds `Address::get_type`: match on the first three bytes of the
connection string — `[0x69, 0x6e, 0x70]` (`"inp"`) is `Local`,
`[0x74, 0x63, 0x70]` (`"tcp"`) is `Remote`, anything else panics
("Address connection string is malformed", modelled as `none`). -/
def Address.get_type (conn : List Nat) : Option AddressType :=
  match conn with
  | a :: b :: c :: _ =>
    if a = 0x69 ∧ b = 0x6e ∧ c = 0x70 then some AddressType.Local
    else if a = 0x74 ∧ b = 0x63 ∧ c = 0x70 then some AddressType.Remote
    else none
  | _ => none

/-- Embeds `truncate_byte_array_string`: find the position of the first zero
byte (or the length when there is none, `unwrap_or(bytes.len())`) and keep the
bytes before it.  This is the connectable string handed to
`zmq::Socket::bind`/`connect` by `Inbox::new` and `Outbox::new`. -/
def truncate_byte_array_string (bytes : List Nat) : List Nat :=
  let zero_byte_position := bytes.findIdx (fun v => v == 0)
  bytes.take zero_byte_position

/-- Embeds one `self.0.drain(self.0.len() - ADDRESS_LENGTH..)` step of
`Envelope::open`: split off the last 32 bytes.  When the buffer holds fewer
than 32 bytes the length subtraction underflows and the drain aborts the
process (modelled as `none`). -/
def drainLast32 (bytes : List Nat) : Option (List Nat × List Nat) :=
  if bytes.length < ADDRESS_LENGTH then none
  else some (bytes.drop (bytes.length - ADDRESS_LENGTH),
             bytes.take (bytes.length - ADDRESS_LENGTH))

/-- Embeds `Envelope::open`: drain the trailing 32 bytes as the destination
address, then the new trailing 32 bytes as the source address, and return
`(destination, source, payload)`. -/
def Envelope.«open» (bytes : List Nat) : Option (List Nat × List Nat × List Nat) :=
  match drainLast32 bytes with
  | none => none
  | some (dest_address, rest) =>
    match drainLast32 rest with
    | none => none
    | some (source_address, payload) => some (dest_address, source_address, payload)

/-- Embeds the packing part of `Outbox::send`: extend the serialized message
bytes with the source connection string, then the destination connection
string. -/
def Outbox.pack (message_bytes source_address dest_address : List Nat) : List Nat :=
  message_bytes ++ source_address ++ dest_address

theorem writeToBuffer_inv {content buf : List Nat}
    (h : writeToBuffer content = some buf) :
    content.length ≤ ADDRESS_LENGTH ∧
      buf = content ++ List.replicate (ADDRESS_LENGTH - content.length) fillerByte := by
  unfold writeToBuffer at h
  split at h
  · exact ⟨by assumption, (Option.some_inj.mp h).symm⟩
  · exact absurd h (by simp)

theorem drainLast32_append (l r : List Nat) (hr : r.length = 32) :
    drainLast32 (l ++ r) = some (r, l) := by
  have hlen : (l ++ r).length = l.length + 32 := by simp [hr]
  have hsub : (l ++ r).length - ADDRESS_LENGTH = l.length := by
    simp [ADDRESS_LENGTH]; omega
  unfold drainLast32
  rw [if_neg (by simp [ADDRESS_LENGTH]; omega), hsub, List.drop_left, List.take_left]

/-- Claim C1: envelope round-trip — for every payload `P` and 32-byte
addresses `S`, `D`, packing as `Outbox::send` does (append `S` then `D` to
`P`) and opening with `Envelope::open` yields exactly `(D, S, P)`, and the
packed buffer has length `|P| + 64`. -/
theorem envelope_roundtrip (P S D : List Nat)
    (hS : S.length = 32) (hD : D.length = 32) :
    Envelope.«open» (Outbox.pack P S D) = some (D, S, P) ∧
      (Outbox.pack P S D).length = P.length + 64 := by
  constructor
  · have hd : drainLast32 (P ++ (S ++ D)) = some (D, P ++ S) := by
      rw [← List.append_assoc]
      exact drainLast32_append (P ++ S) D hD
    have hs : drainLast32 (P ++ S) = some (S, P) := drainLast32_append P S hS
    simp [Envelope.«open», Outbox.pack, hd, hs]
  · simp [Outbox.pack, hS, hD]

/-- Witness for C1 at a concrete payload and address pair. -/
theorem envelope_roundtrip_witness :
    Envelope.«open» (Outbox.pack [1, 2, 3] (List.replicate 32 4) (List.replicate 32 5)) =
        some (List.replicate 32 5, List.replicate 32 4, [1, 2, 3]) ∧
      (Outbox.pack [1, 2, 3] (List.replicate 32 4) (List.replicate 32 5)).length = 67 :=
  envelope_roundtrip [1, 2, 3] (List.replicate 32 4) (List.replicate 32 5)
    (by decide) (by decide)

/-- Claim C2: envelope underflow — every buffer shorter than 64 bytes makes
`Envelope::open` fail (the drain of the fixed 32-byte trailer aborts), never
return a wrong triple. -/
theorem envelope_underflow (B : List Nat) (h : B.length < 64) :
    Envelope.«open» B = none := by
  by_cases h32 : B.length < 32
  · have h1 : drainLast32 B = none := by
      unfold drainLast32
      rw [if_pos (by simpa [ADDRESS_LENGTH] using h32)]
    simp [Envelope.«open», h1]
  · have h1 : drainLast32 B =
        some (B.drop (B.length - ADDRESS_LENGTH), B.take (B.length - ADDRESS_LENGTH)) := by
      unfold drainLast32
      rw [if_neg (by simpa [ADDRESS_LENGTH] using h32)]
    have h2 : drainLast32 (B.take (B.length - ADDRESS_LENGTH)) = none := by
      unfold drainLast32
      rw [if_pos]
      simp [ADDRESS_LENGTH]
      omega
    simp [Envelope.«open», h1, h2]

/-- Witness for C2 at a concrete 63-byte buffer. -/
theorem envelope_underflow_witness :
    Envelope.«open» (List.replicate 63 7) = none :=
  envelope_underflow (List.replicate 63 7) (by decide)

theorem toDecimalAux_eq_digits : ∀ f n, n ≤ f → toDecimalAux f n = Nat.digits 10 n := by
  intro f
  induction f with
  | zero =>
    intro n h
    interval_cases n
    simp [toDecimalAux]
  | succ f ih =>
    intro n h
    match n with
    | 0 => simp [toDecimalAux]
    | n + 1 =>
      rw [toDecimalAux, Nat.digits_def' (by norm_num : (1:ℕ) < 10) (Nat.succ_pos n), ih]
      omega

theorem decimalBytes_len4 {n : Nat} (h1 : 1000 ≤ n) (h2 : n < 10000) :
    (decimalBytes n).length = 4 := by
  have hn : n ≠ 0 := by omega
  have hlog : Nat.log 10 n = 3 :=
    Nat.log_eq_of_pow_le_of_lt_pow (by norm_num; omega) (by norm_num; omega)
  simp [decimalBytes, hn, toDecimalAux_eq_digits n n le_rfl,
        Nat.digits_len 10 n (by norm_num) hn, hlog]

theorem decimalBytes_ge_48 {n b : Nat} (h : b ∈ decimalBytes n) : 48 ≤ b := by
  unfold decimalBytes at h
  split at h
  · simp at h
    omega
  · rw [List.mem_reverse, List.mem_map] at h
    obtain ⟨d, _, rfl⟩ := h
    omega

theorem remotePort_range (r : Nat) : 5000 ≤ remotePort r ∧ remotePort r ≤ 9999 := by
  have : r % 5000 < 5000 := Nat.mod_lt r (by norm_num)
  unfold remotePort
  omega

theorem remoteContent_length (r : Nat) : (remoteContent r).length = 20 := by
  have hrange := remotePort_range r
  have h4 : (decimalBytes (remotePort r)).length = 4 :=
    decimalBytes_len4 (by omega) (by omega)
  simp [remoteContent, h4, strBytes]

theorem zero_not_mem_remoteContent (r : Nat) : fillerByte ∉ remoteContent r := by
  intro hmem
  unfold remoteContent at hmem
  rw [List.mem_append] at hmem
  rcases hmem with h | h
  · revert h
    decide
  · have := decimalBytes_ge_48 h
    simp [fillerByte] at this

theorem truncate_append_pad (content : List Nat) (k : Nat) (h : fillerByte ∉ content) :
    truncate_byte_array_string (content ++ List.replicate k fillerByte) = content := by
  induction content with
  | nil =>
    cases k with
    | zero => rfl
    | succ k =>
      simp [truncate_byte_array_string, List.replicate_succ, fillerByte, List.findIdx_cons]
  | cons a l ih =>
    simp only [fillerByte, List.mem_cons, not_or] at h
    have ha0 : a ≠ 0 := fun hh => h.1 hh.symm
    have ha : (a == 0) = false := by simpa using ha0
    have hl := ih (by simpa [fillerByte] using h.2)
    simp only [truncate_byte_array_string] at hl ⊢
    simp [List.findIdx_cons, ha, hl]

theorem zero_not_mem_truncate (bytes : List Nat) :
    fillerByte ∉ truncate_byte_array_string bytes := by
  induction bytes with
  | nil => simp [truncate_byte_array_string]
  | cons a l ih =>
    by_cases ha : a = 0
    · simp [truncate_byte_array_string, List.findIdx_cons, ha]
    · have ha' : (a == 0) = false := by simpa using ha
      simp only [truncate_byte_array_string] at ih ⊢
      simp [List.findIdx_cons, ha', fillerByte, ha]
      refine ⟨fun hh => ha hh.symm, ?_⟩
      simpa [fillerByte] using ih

/-- Claim C5: for every address built by `Address::new`, the string the
mailboxes hand to the transport (`truncate_byte_array_string` applied to the
32-byte connection buffer at `bind`/`connect` time) is exactly the formatted
content with all trailing pad bytes stripped, and it contains no filler/null
byte anywhere.  The local-scheme token is universally quantified over every
null-free byte sequence the external name generator may produce. -/
theorem connectable_string_stripping :
    (∀ token conn, fillerByte ∉ token → Address.newLocal token = some conn →
      truncate_byte_array_string conn = localContent token ∧
        fillerByte ∉ truncate_byte_array_string conn) ∧
    (∀ r conn, Address.newRemote r = some conn →
      truncate_byte_array_string conn = remoteContent r ∧
        fillerByte ∉ truncate_byte_array_string conn) := by
  constructor
  · intro token conn htoken h
    obtain ⟨-, rfl⟩ := writeToBuffer_inv h
    refine ⟨truncate_append_pad _ _ ?_, zero_not_mem_truncate _⟩
    intro hmem
    rw [localContent, List.mem_append] at hmem
    rcases hmem with h' | h'
    · revert h'
      decide
    · exact htoken h'
  · intro r conn h
    obtain ⟨-, rfl⟩ := writeToBuffer_inv h
    exact ⟨truncate_append_pad _ _ (zero_not_mem_remoteContent r), zero_not_mem_truncate _⟩

/-- Witness for C5 at a concrete local token and a concrete remote draw. -/
theorem connectable_string_stripping_witness :
    (truncate_byte_array_string (localContent (strBytes ("abc")) ++ List.replicate 20 fillerByte) =
        localContent (strBytes ("abc")) ∧
      fillerByte ∉ truncate_byte_array_string
        (localContent (strBytes ("abc")) ++ List.replicate 20 fillerByte)) ∧
    (truncate_byte_array_string (remoteContent 0 ++ List.replicate 12 fillerByte) =
        remoteContent 0 ∧
      fillerByte ∉ truncate_byte_array_string (remoteContent 0 ++ List.replicate 12 fillerByte)) :=
  ⟨connectable_string_stripping.1 (strBytes ("abc")) _ (by decide) (by decide),
   connectable_string_stripping.2 0 _ (by decide)⟩

/-- Claim C6 counterexample: the fixed filler byte that pads the unused tail
of every `Address` buffer (`[0 as u8; ADDRESS_LENGTH]` in `Address::new`) IS
the null byte, contradicting the claim that it is never the null byte. -/
theorem filler_byte_is_null : fillerByte = 0 := rfl

/-- Claim C6 (amended): the filler byte is the null byte `0x00`; it never
occurs inside the formatted content before its logical end (for any null-free
local token and for every remote draw), and the truncation routine strips all
trailing filler before the string reaches the transport, so the transport
never sees it. -/
theorem filler_byte_invariant_amended :
    fillerByte = 0 ∧
    (∀ token, fillerByte ∉ token → fillerByte ∉ localContent token) ∧
    (∀ r, fillerByte ∉ remoteContent r) ∧
    (∀ content k, fillerByte ∉ content →
      truncate_byte_array_string (content ++ List.replicate k fillerByte) = content) := by
  refine ⟨rfl, ?_, zero_not_mem_remoteContent, truncate_append_pad⟩
  intro token htoken hmem
  rw [localContent, List.mem_append] at hmem
  rcases hmem with h' | h'
  · revert h'
    decide
  · exact htoken h'

/-- Witness for the amended C6 at a concrete token, remote draw and pad. -/
theorem filler_byte_invariant_amended_witness :
    fillerByte = 0 ∧
    fillerByte ∉ localContent (strBytes ("xy")) ∧
    fillerByte ∉ remoteContent 4999 ∧
    truncate_byte_array_string (strBytes ("tcp")++ List.replicate 3 fillerByte) = strBytes ("tcp") :=
  ⟨filler_byte_invariant_amended.1,
   filler_byte_invariant_amended.2.1 (strBytes ("xy")) (by decide),
   filler_byte_invariant_amended.2.2.1 4999,
   filler_byte_invariant_amended.2.2.2 (strBytes ("tcp")) 3 (by decide)⟩

/-- Claim C7: scheme round-trip — an address freshly generated by
`Address::new` with a given kind is decoded back to that kind by
`Address::get_type` from its first three bytes. -/
theorem address_scheme_roundtrip :
    (∀ token conn, Address.newLocal token = some conn →
      Address.get_type conn = some AddressType.Local) ∧
    (∀ r conn, Address.newRemote r = some conn →
      Address.get_type conn = some AddressType.Remote) := by
  constructor
  · intro token conn h
    obtain ⟨-, rfl⟩ := writeToBuffer_inv h
    have hs : localContent token =
        105 :: 110 :: 112 :: (strBytes ("roc://") ++ token) := by
      simp [localContent, strBytes]
    rw [hs]
    simp [Address.get_type]
  · intro r conn h
    obtain ⟨-, rfl⟩ := writeToBuffer_inv h
    have hs : remoteContent r =
        116 :: 99 :: 112 :: (strBytes ("://127.0.0.1:") ++ decimalBytes (remotePort r)) := by
      simp [remoteContent, strBytes]
    rw [hs]
    simp [Address.get_type]

/-- Witness for C7 at a concrete token and a concrete remote draw. -/
theorem address_scheme_roundtrip_witness :
    Address.get_type (localContent (strBytes ("abc")) ++ List.replicate 20 fillerByte) =
        some AddressType.Local ∧
      Address.get_type (remoteContent 0 ++ List.replicate 12 fillerByte) =
        some AddressType.Remote :=
  ⟨address_scheme_roundtrip.1 (strBytes ("abc")) _ (by decide),
   address_scheme_roundtrip.2 0 _ (by decide)⟩

/-- Claim C10: remote address construction is total — the generated port is
always in `[5000, 9999]`, the formatted `tcp://127.0.0.1:<port>` content is
exactly 20 bytes and so always fits the 32-byte buffer: the
`expect("Cannot create address")` failure branch is unreachable for the
`Remote` kind. -/
theorem remote_address_total (r : Nat) :
    5000 ≤ remotePort r ∧ remotePort r ≤ 9999 ∧
      (remoteContent r).length = 20 ∧
      Address.newRemote r = some (remoteContent r ++ List.replicate 12 fillerByte) := by
  have hrange := remotePort_range r
  have hlen := remoteContent_length r
  refine ⟨hrange.1, hrange.2, hlen, ?_⟩
  unfold Address.newRemote writeToBuffer
  rw [if_pos (by rw [hlen]; simp [ADDRESS_LENGTH]), hlen]
  rfl

/-- Witness for C10 at a concrete random draw. -/
theorem remote_address_total_witness :
    5000 ≤ remotePort 12345 ∧ remotePort 12345 ≤ 9999 ∧
      (remoteContent 12345).length = 20 ∧
      Address.newRemote 12345 = some (remoteContent 12345 ++ List.replicate 12 fillerByte) :=
  remote_address_total 12345

/-- The transport error type, abstracted at the interface `Inbox::receive`
depends on: the would-block code `EAGAIN` that the zmq crate returns when a
non-blocking receive finds no message, and every other error code. -/
inductive ZmqError
  | EAGAIN
  | other (code : Nat)
deriving DecidableEq, Repr

/-- Integer value of the `zmq::DONTWAIT` flag passed by `Inbox::receive` when
`should_block` is false (`0` is passed when it is true). -/
def DONTWAIT : Nat := 1

/-- Embeds the flag choice in `Inbox::receive`:
`if should_block.0 { 0 } else { zmq::DONTWAIT }`. -/
def recvFlags (should_block : Bool) : Nat := if should_block then 0 else DONTWAIT

/-- The observable outcomes of `Inbox::receive`: `Some(bytes)`, `None`
(the "no message" outcome), or the
`panic!("Actor failed to receive message")` abort. -/
inductive RecvOutcome
  | message (bytes : List Nat)
  | noMessage
  | fatalError
deriving DecidableEq, Repr

/-- Embeds `Inbox::receive`.  The transport call `recv_bytes` is an explicit
parameter mapping the flag value to the transport's result; the body matches
the source: `Ok(bytes)` becomes the message outcome, `Err(EAGAIN)` becomes the
"no message" outcome, any other error aborts. -/
def Inbox.receive (should_block : Bool)
    (recv_bytes : Nat → Except ZmqError (List Nat)) : RecvOutcome :=
  match recv_bytes (recvFlags should_block) with
  | Except.ok bytes => RecvOutcome.message bytes
  | Except.error ZmqError.EAGAIN => RecvOutcome.noMessage
  | Except.error (ZmqError.other _) => RecvOutcome.fatalError

/-- Claim C8: non-blocking receive distinction — with `blocking = false` the
socket is polled with the `DONTWAIT` flag, and a would-block (`EAGAIN`)
report from the transport yields the "no message" outcome (not an error, not
the abort); every other transport error remains fatal; with
`blocking = true` the flag is `0` and delivered bytes are returned as the
message outcome. -/
theorem nonblocking_receive_distinction :
    recvFlags false = DONTWAIT ∧ recvFlags true = 0 ∧
    (∀ recv_bytes : Nat → Except ZmqError (List Nat),
      recv_bytes DONTWAIT = Except.error ZmqError.EAGAIN →
        Inbox.receive false recv_bytes = RecvOutcome.noMessage) ∧
    (∀ (recv_bytes : Nat → Except ZmqError (List Nat)) (e : ZmqError),
      recv_bytes DONTWAIT = Except.error e → e ≠ ZmqError.EAGAIN →
        Inbox.receive false recv_bytes = RecvOutcome.fatalError) ∧
    (∀ (recv_bytes : Nat → Except ZmqError (List Nat)) (bytes : List Nat),
      recv_bytes 0 = Except.ok bytes →
        Inbox.receive true recv_bytes = RecvOutcome.message bytes) := by
  refine ⟨rfl, rfl, ?_, ?_, ?_⟩
  · intro t h
    simp [Inbox.receive, recvFlags, h]
  · intro t e h hne
    cases e with
    | EAGAIN => exact absurd rfl hne
    | other code => simp [Inbox.receive, recvFlags, h]
  · intro t bytes h
    simp [Inbox.receive, recvFlags, h]

/-- Witness for C8 at concrete transport behaviours. -/
theorem nonblocking_receive_distinction_witness :
    Inbox.receive false (fun _ => Except.error ZmqError.EAGAIN) = RecvOutcome.noMessage ∧
    Inbox.receive false (fun _ => Except.error (ZmqError.other 5)) = RecvOutcome.fatalError ∧
    Inbox.receive true (fun _ => Except.ok [9, 9]) = RecvOutcome.message [9, 9] :=
  ⟨nonblocking_receive_distinction.2.2.1 _ rfl,
   nonblocking_receive_distinction.2.2.2.1 _ (ZmqError.other 5) rfl (by decide),
   nonblocking_receive_distinction.2.2.2.2 _ [9, 9] rfl⟩

/-- Rust types that occur in the message declarations the claims mention
(only their identity matters for dispatch routing). -/
inductive RustType
  | tU8
  | tU64
  | tString
deriving DecidableEq, Repr

/-- The shape of one enum variant's fields, as `syn::Fields` distinguishes
them: `Unit`, `Unnamed` (tuple) or `Named`. -/
inductive Fields
  | unit
  | unnamed (tys : List RustType)
  | named (fields : List (String × RustType))
deriving DecidableEq, Repr

/-- One variant of the annotated enum. -/
structure Variant where
  name : String
  fields : Fields
deriving DecidableEq, Repr

/-- The enum declaration handed to the `actor_message` attribute. -/
structure EnumDecl where
  name : String
  variants : List Variant
deriving DecidableEq, Repr

/-- True exactly on tuple (`syn::Fields::Unnamed`) variant shapes. -/
def isTupleVariant : Fields → Bool
  | Fields.unnamed _ => true
  | _ => false

/-- Word splitter behind the snake-case conversion: splits the identifier at
underscores and at case boundaries (a lowercase or digit followed by an
uppercase, and the last uppercase of a run that is followed by a lowercase),
modelling the external `heck::SnakeCase` folding used by the macro at the
interface the spec describes. -/
def wordsAux : List Char → List Char → List (List Char)
  | [], acc => if acc.isEmpty then [] else [acc.reverse]
  | c :: rest, acc =>
    if c = '_' then
      if acc.isEmpty then wordsAux rest [] else acc.reverse :: wordsAux rest []
    else if c.isUpper then
      if acc.isEmpty then wordsAux rest [c]
      else if acc.head?.elim false (fun p => p.isLower || p.isDigit) then
        acc.reverse :: wordsAux rest [c]
      else if rest.head?.elim false Char.isLower then
        acc.reverse :: wordsAux rest [c]
      else wordsAux rest (c :: acc)
    else wordsAux rest (c :: acc)

/-- Snake-case folding: lowercase words joined by single underscores. -/
def snakeCase (s : String) : String :=
  String.mk (List.intercalate (['_']) ((wordsAux s.data []).map (fun w => w.map Char.toLower)))

/-- Embeds the handler-name derivation of the macro:
`format!("handle_{}", variant_name).to_snake_case()`. -/
def handlerMethodName (variantName : String) : String :=
  snakeCase ("handle_" ++ variantName)

/-- One generated `match` arm of `dispatch_message`: the variant it matches,
the handler method it calls, and the destructured field names it forwards, in
declaration order (empty for a unit variant). -/
structure DispatchArm where
  variantName : String
  handlerName : String
  fieldNames : List String
deriving DecidableEq, Repr

/-- Embeds the per-variant body of the macro's loop: a unit variant yields an
arm calling the handler with no arguments; a tuple variant hits
`unimplemented!("Tuple variants are not supported")`, aborting macro
expansion (a build-time error, modelled as `Except.error`); a named variant
yields an arm destructuring all fields and forwarding them in declaration
order. -/
def genArm (v : Variant) : Except String DispatchArm :=
  match v.fields with
  | Fields.unit => Except.ok ⟨v.name, handlerMethodName v.name, []⟩
  | Fields.unnamed _ => Except.error ("Tuple variants are not supported")
  | Fields.named fs => Except.ok ⟨v.name, handlerMethodName v.name, fs.map Prod.fst⟩

/-- Embeds the macro's `for variant_data in &enum_data.variants` loop: the
arms are generated in declaration order, and the first tuple variant aborts
the whole expansion. -/
def genArms : List Variant → Except String (List DispatchArm)
  | [] => Except.ok []
  | v :: rest =>
    match genArm v with
    | Except.error e => Except.error e
    | Except.ok a =>
      match genArms rest with
      | Except.error e => Except.error e
      | Except.ok arms => Except.ok (a :: arms)

/-- Embeds the observable output of the `actor_message` attribute that the
dispatch claims are about: the list of `dispatch_message` match arms (or the
build-time error). -/
def actor_message (d : EnumDecl) : Except String (List DispatchArm) :=
  genArms d.variants

/-- A runtime field value carried by a message. -/
inductive FieldVal
  | u8 (n : Nat)
  | u64 (n : Nat)
  | str (s : String)
deriving DecidableEq, Repr

/-- A runtime message value: the variant's name together with its named field
values. -/
structure MessageValue where
  variant : String
  fields : List (String × FieldVal)
deriving DecidableEq, Repr

/-- A handler invocation: the method called and the arguments passed, in
order. -/
structure HandlerCall where
  handler : String
  args : List FieldVal
deriving DecidableEq, Repr

/-- Look up a destructured field binding by name in the matched value. -/
def lookupField (fs : List (String × FieldVal)) (n : String) : Option FieldVal :=
  (fs.find? (fun p => p.1 == n)).map Prod.snd

/-- The meaning of the generated `dispatch_message` match: the value's
variant selects the unique matching arm, the arm's destructured field names
are bound from the value, and the handler is called with those bindings in
the arm's order.  `none` means no arm matches (unreachable for values of the
declared enum, since the generator emits one arm per variant). -/
def dispatch (arms : List DispatchArm) (m : MessageValue) : Option HandlerCall :=
  match arms.find? (fun a => a.variantName == m.variant) with
  | none => none
  | some a =>
    (a.fieldNames.mapM (lookupField m.fields)).map (fun args => ⟨a.handlerName, args⟩)

/-- The message type of claim C3, exactly as the claim states it: variants
`A` (unit), `B(u8, String)` (a tuple variant) and
`C { x: u64, y: String }`. -/
def c3Enum : EnumDecl :=
  ⟨"Message",
   [⟨"A", Fields.unit⟩,
    ⟨"B", Fields.unnamed [RustType.tU8, RustType.tString]⟩,
    ⟨"C", Fields.named [("x", RustType.tU64), ("y", RustType.tString)]⟩]⟩

/-- The C3 message type with the tuple variant `B` replaced by the named
shape the macro supports. -/
def c3EnumNamed : EnumDecl :=
  ⟨"Message",
   [⟨"A", Fields.unit⟩,
    ⟨"B", Fields.named [("b0", RustType.tU8), ("b1", RustType.tString)]⟩,
    ⟨"C", Fields.named [("x", RustType.tU64), ("y", RustType.tString)]⟩]⟩

/-- The arms the macro generates for `c3EnumNamed`. -/
def c3Arms : List DispatchArm :=
  [⟨"A", "handle_a", []⟩,
   ⟨"B", "handle_b", ["b0", "b1"]⟩,
   ⟨"C", "handle_c", ["x", "y"]⟩]

/-- Claim C3 counterexample: for the message type exactly as the claim states
it — with the tuple variant `B(u8, String)` — the generator does not produce
a dispatcher at all: expansion aborts with the tuple-variant build error, so
no dispatcher routes `B(7, "x")` to `handle_b`. -/
theorem dispatch_exhaustiveness_counterexample :
    actor_message c3Enum = Except.error ("Tuple variants are not supported") := rfl

/-- Claim C3 (amended): with the tuple variant `B` given named fields (the
only field-carrying shape the macro supports), the generated dispatcher has
exactly one arm per variant and routes a unit `A` to `handle_a()` with no
arguments, `B` with values `(7, "x")` to `handle_b(7, "x")`, and `C` with
`{x: 9, y: "z"}` to `handle_c(9, "z")`, fields forwarded in declaration
order; a value of any undeclared variant reaches no arm.  The original
tuple-variant form instead raises the build-time error of the
counterexample. -/
theorem dispatch_exhaustiveness_amended :
    actor_message c3EnumNamed = Except.ok c3Arms ∧
    dispatch c3Arms ⟨"A", []⟩ = some ⟨"handle_a", []⟩ ∧
    dispatch c3Arms ⟨"B", [("b0", FieldVal.u8 7), ("b1", FieldVal.str ("x"))]⟩ =
      some ⟨"handle_b", [FieldVal.u8 7, FieldVal.str ("x")]⟩ ∧
    dispatch c3Arms ⟨"C", [("x", FieldVal.u64 9), ("y", FieldVal.str ("z"))]⟩ =
      some ⟨"handle_c", [FieldVal.u64 9, FieldVal.str ("z")]⟩ ∧
    dispatch c3Arms ⟨"D", []⟩ = none :=
  ⟨rfl, by decide, by decide, by decide, by decide⟩

theorem genArm_error_of_tuple :
    ∀ v : Variant, isTupleVariant v.fields = true →
      genArm v = Except.error ("Tuple variants are not supported") := by
  rintro ⟨name, fields⟩ h
  cases fields with
  | unit => simp [isTupleVariant] at h
  | unnamed tys => rfl
  | named fs => simp [isTupleVariant] at h

theorem genArm_ok_of_not_tuple :
    ∀ v : Variant, isTupleVariant v.fields = false → ∃ a, genArm v = Except.ok a := by
  rintro ⟨name, fields⟩ h
  cases fields with
  | unit => exact ⟨_, rfl⟩
  | unnamed tys => simp [isTupleVariant] at h
  | named fs => exact ⟨_, rfl⟩

theorem genArm_error_msg :
    ∀ (v : Variant) (e : String), genArm v = Except.error e →
      e = "Tuple variants are not supported" := by
  rintro ⟨name, fields⟩ e h
  cases fields with
  | unit => exact Except.noConfusion h
  | unnamed tys =>
    injection h with h'
    exact h'.symm
  | named fs => exact Except.noConfusion h

/-- If any variant of the declaration is a tuple variant, expansion aborts
with the tuple-variant error. -/
theorem genArms_error_of_tuple :
    ∀ vs : List Variant, (∃ v ∈ vs, isTupleVariant v.fields = true) →
      genArms vs = Except.error ("Tuple variants are not supported") := by
  intro vs
  induction vs with
  | nil => rintro ⟨v, hv, -⟩; cases hv
  | cons v rest ih =>
    rintro ⟨w, hw, hwt⟩
    rcases List.mem_cons.mp hw with rfl | hw'
    · simp [genArms, genArm_error_of_tuple w hwt]
    · have hrest := ih ⟨w, hw', hwt⟩
      cases ha : genArm v with
      | error e => simp [genArms, ha, genArm_error_msg v e ha]
      | ok a => simp [genArms, ha, hrest]

/-- If no variant is a tuple variant, expansion succeeds. -/
theorem genArms_ok_of_no_tuple :
    ∀ vs : List Variant, (∀ v ∈ vs, isTupleVariant v.fields = false) →
      ∃ arms, genArms vs = Except.ok arms := by
  intro vs
  induction vs with
  | nil => exact fun _ => ⟨[], rfl⟩
  | cons v rest ih =>
    intro h
    obtain ⟨arms, harms⟩ := ih (fun w hw => h w (List.mem_cons_of_mem v hw))
    obtain ⟨a, ha⟩ := genArm_ok_of_not_tuple v (h v (List.mem_cons_self v rest))
    exact ⟨a :: arms, by simp [genArms, ha, harms]⟩

/-- Claim C9: tuple-variant rejection — any annotated enum containing a tuple
(unnamed-fields) variant makes the `actor_message` attribute abort expansion
with a build-time error rather than skip the variant, and every enum whose
variants are all unit- or named-shaped expands successfully: only those two
shapes are supported. -/
theorem tuple_variant_rejection :
    (∀ d : EnumDecl, (∃ v ∈ d.variants, isTupleVariant v.fields = true) →
      actor_message d = Except.error ("Tuple variants are not supported")) ∧
    (∀ d : EnumDecl, (∀ v ∈ d.variants, isTupleVariant v.fields = false) →
      ∃ arms, actor_message d = Except.ok arms) :=
  ⟨fun d h => genArms_error_of_tuple d.variants h,
   fun d h => genArms_ok_of_no_tuple d.variants h⟩

/-- Witness for C9 at a concrete tuple-carrying enum and a concrete supported
enum. -/
theorem tuple_variant_rejection_witness :
    actor_message ⟨"Msg", [⟨"T", Fields.unnamed [RustType.tU8]⟩]⟩ =
        Except.error ("Tuple variants are not supported") ∧
      ∃ arms, actor_message ⟨"Msg", [⟨"U", Fields.unit⟩]⟩ = Except.ok arms :=
  ⟨tuple_variant_rejection.1 ⟨"Msg", [⟨"T", Fields.unnamed [RustType.tU8]⟩]⟩
      ⟨⟨"T", Fields.unnamed [RustType.tU8]⟩, by decide, by decide⟩,
   tuple_variant_rejection.2 ⟨"Msg", [⟨"U", Fields.unit⟩]⟩ (by decide)⟩

/-- Observable events of the generated control loop `run`: the `pre_run`
hook, the `receive` call, the dispatch returning a `ShouldTerminate` value,
and the `post_run` hook. -/
inductive LoopEvent
  | preRun
  | receiveMsg
  | dispatchRes (terminate : Bool)
  | postRun
deriving DecidableEq, Repr

/-- Embeds the generated `run` loop
(`loop { pre_run(); let m = receive(); if dispatch_message(m).into() { break; } post_run(); }`)
as the trace of events it produces, driven by the sequence of
`ShouldTerminate` values the dispatched handlers return for the successive
received messages (`true` = terminate).  The trace consumes one handler
result per iteration and stops at the first `true`; results after it belong
to messages the loop never receives. -/
def run : List Bool → List LoopEvent
  | [] => []
  | r :: rs =>
    LoopEvent.preRun :: LoopEvent.receiveMsg :: LoopEvent.dispatchRes r ::
      (if r then [] else LoopEvent.postRun :: run rs)

/-- Claim C4: control-loop termination — for handler results `false` then
`true` the loop performs exactly two receive/dispatch cycles with a single
`post_run` between them and none after the terminating dispatch; in general,
for any run of `n` non-terminating results followed by a terminating one, the
loop runs `n + 1` cycles, each non-final cycle ending in `post_run`, and
stops right at the terminating dispatch, ignoring any later results. -/
theorem control_loop_termination :
    run [false, true] =
      [LoopEvent.preRun, LoopEvent.receiveMsg, LoopEvent.dispatchRes false, LoopEvent.postRun,
       LoopEvent.preRun, LoopEvent.receiveMsg, LoopEvent.dispatchRes true] ∧
    (run [false, true]).count LoopEvent.receiveMsg = 2 ∧
    (run [false, true]).count LoopEvent.postRun = 1 ∧
    ∀ (n : Nat) (rest : List Bool),
      run (List.replicate n false ++ true :: rest) =
        (List.replicate n
            [LoopEvent.preRun, LoopEvent.receiveMsg, LoopEvent.dispatchRes false,
             LoopEvent.postRun]).flatten ++
          [LoopEvent.preRun, LoopEvent.receiveMsg, LoopEvent.dispatchRes true] := by
  refine ⟨by decide, by decide, by decide, ?_⟩
  intro n
  induction n with
  | zero => intro rest; simp [run]
  | succ n ih =>
    intro rest
    simp only [List.replicate_succ, List.cons_append, run, if_neg Bool.false_ne_true,
               List.flatten_cons]
    simp only [List.append_assoc, List.cons_append, List.nil_append]
    exact congrArg _ (congrArg _ (congrArg _ (congrArg _ (ih rest))))

/-- Witness for C4's general clause at one non-terminating cycle followed by
the terminating one. -/
theorem control_loop_termination_witness :
    run (List.replicate 1 false ++ true :: ([] : List Bool)) =
      (List.replicate 1
          [LoopEvent.preRun, LoopEvent.receiveMsg, LoopEvent.dispatchRes false,
           LoopEvent.postRun]).flatten ++
        [LoopEvent.preRun, LoopEvent.receiveMsg, LoopEvent.dispatchRes true] :=
  control_loop_termination.2.2.2 1 []

end YoctoActor
